import Mathlib

/-!
Shallow embedding of `src/main.py` of the FloridaBESTtoPDF repository.

Strings are modelled as lists of characters, Python integers as `Int`,
file systems as lists of file names, and each fallible external call of
the capture unit as an `Option` value supplied by an environment record
(`none` meaning "this call raised").  Every definition is translated from
the corresponding Python function; the doc comment of each definition
names its source location.
-/

/-- Python strings, as lists of characters. -/
abbrev Str := List Char

/-- The character of a decimal digit `d`. -/
def digitChar10 (d : Nat) : Char := Char.ofNat (48 + d)

/-- Little-endian decimal digits of `n`, with explicit fuel so that the
definition is structurally recursive (kernel-reducible). -/
def natDigitsRev (fuel : Nat) (n : Nat) : List Nat :=
  match fuel with
  | 0 => []
  | fuel + 1 => if n = 0 then [] else (n % 10) :: natDigitsRev fuel (n / 10)

/-- Python `str(n)` for a natural number: decimal, big-endian, `"0"` for zero. -/
def natToStr (n : Nat) : Str :=
  if n = 0 then [digitChar10 0] else ((natDigitsRev n n).map digitChar10).reverse

/-- Python `int(s)` on a string of decimal digits. -/
def strToNat (s : Str) : Nat := s.foldl (fun a c => 10 * a + (c.toNat - 48)) 0

/-- Python `str(i)` for an integer. -/
def pyStr (i : Int) : Str :=
  if i < 0 then '-' :: natToStr i.natAbs else natToStr i.toNat

/-- Python `str.zfill`: left-pad with `'0'` to the given width, keeping a
leading sign in front of the inserted zeros. -/
def pyZfill (w : Nat) (s : Str) : Str :=
  match s with
  | [] => List.replicate w '0'
  | c :: rest =>
    if c = '-' ∨ c = '+' then c :: (List.replicate (w - (rest.length + 1)) '0' ++ rest)
    else List.replicate (w - (rest.length + 1)) '0' ++ (c :: rest)

/-- Python `range(a, b + 1)` (the inclusive page ranges of `generate_urls`). -/
def pyRange (a b : Int) : List Int :=
  (List.range (b + 1 - a).toNat).map (fun (k : Nat) => a + (k : Int))

/-- Split a string around its last maximal run of decimal digits:
`some (pre, run, post)` with `s = pre ++ run ++ post`, the run nonempty and
`post` digit-free.  This models `list(re.finditer(r"\d+", s))[-1]` as used by
`replace_last_number` (src/main.py:57-64) and by `main` (src/main.py:482). -/
def splitLastRun (s : Str) : Option (Str × Str × Str) :=
  let r := s.reverse
  let rest := r.dropWhile (fun c => !c.isDigit)
  match rest with
  | [] => none
  | _ :: _ =>
    some ((rest.dropWhile Char.isDigit).reverse,
          (rest.takeWhile Char.isDigit).reverse,
          (r.takeWhile (fun c => !c.isDigit)).reverse)

/-- The Python exceptions raised by the generator pipeline.  The three
`valueError…` constructors are the explicit `ValueError`s of
`generate_urls`/`replace_last_number`; the spec calls them
`ConfigurationError`. -/
inductive PyErr where
  | valueErrorNoEndCountPage
  | valueErrorNoEndCount
  | valueErrorNoDigits
  | valueErrorNoNumericSeq
  | keyError (name : Str)
  | formatSpecError
  deriving DecidableEq

instance {ε α : Type} [DecidableEq ε] [DecidableEq α] : DecidableEq (Except ε α) := fun a b =>
  match a, b with
  | .ok x, .ok y =>
    if h : x = y then .isTrue (h ▸ rfl) else .isFalse (fun hc => h (Except.ok.inj hc))
  | .error e, .error f =>
    if h : e = f then .isTrue (h ▸ rfl) else .isFalse (fun hc => h (Except.error.inj hc))
  | .ok _, .error _ => .isFalse (fun hc => Except.noConfusion hc)
  | .error _, .ok _ => .isFalse (fun hc => Except.noConfusion hc)

/-- The errors identified by the spec as `ConfigurationError`. -/
def isConfigError : PyErr → Bool
  | .valueErrorNoEndCountPage => true
  | .valueErrorNoEndCount => true
  | .valueErrorNoDigits => true
  | _ => false

/-- `replace_last_number` (src/main.py:51-64): replace the last digit run of
`url` with `n`, zero-padded to `width` (the run's own length when `none`). -/
def replace_last_number (url : Str) (n : Int) (width : Option Nat) : Except PyErr Str :=
  match splitLastRun url with
  | none => .error .valueErrorNoNumericSeq
  | some (pre, digitsRun, post) =>
    .ok (pre ++ pyZfill (width.getD digitsRun.length) (pyStr n) ++ post)

/-- The literal `"{page"` tested by `generate_urls` (src/main.py:76). -/
def pageMarker : Str := ['{', 'p', 'a', 'g', 'e']

/-- The literal `"{page}"` used by the width-less substitution (src/main.py:94). -/
def pagePlaceholder : Str := ['{', 'p', 'a', 'g', 'e', '}']

/-- Python `"{page" in s` (src/main.py:76). -/
def hasPageMarker (s : Str) : Bool := decide (pageMarker <:+: s)

/-- Greedy digit group followed by `d}`, the tail of the width spec of the
placeholder regex `\{page(?::0?(\d+)d)?\}`. -/
def digitsThenDBrace (l : Str) : Option Str :=
  let g := l.takeWhile Char.isDigit
  if g.isEmpty then none
  else
    match l.dropWhile Char.isDigit with
    | 'd' :: '}' :: _ => some g
    | _ => none

/-- The `0?(\d+)d}` part of the regex, including the backtracking on the
optional leading zero. -/
def tryColonSpec (l : Str) : Option Str :=
  match l with
  | '0' :: r =>
    match digitsThenDBrace r with
    | some g => some g
    | none => digitsThenDBrace l
  | _ => digitsThenDBrace l

/-- Match of the regex `\{page(?::0?(\d+)d)?\}` anchored at the start of `s`;
the result is group 1 (`none` when the optional group did not participate). -/
def matchFmtAt (s : Str) : Option (Option Str) :=
  match s with
  | '{' :: 'p' :: 'a' :: 'g' :: 'e' :: r =>
    match r with
    | '}' :: _ => some none
    | ':' :: r2 => (tryColonSpec r2).map some
    | _ => none
  | _ => none

/-- Leftmost match of the placeholder regex over `s`
(`re.search(r"\{page(?::0?(\d+)d)?\}", s)`, src/main.py:78). -/
def findFmtGroup : Str → Option (Option Str)
  | [] => none
  | s@(_ :: t) =>
    match matchFmtAt s with
    | some g => some g
    | none => findFmtGroup t

/-- The width `generate_urls` derives from the regex match:
`int(group(1))` when group 1 matched, else `0` (src/main.py:78-82). -/
def findFmtWidth (s : Str) : Option Nat :=
  (findFmtGroup s).map (fun g => match g with | some d => strToNat d | none => 0)

/-- The failures `str.format` internals can raise here. -/
inductive FmtErr where
  | keyErr (name : Str)
  | specErr
  deriving DecidableEq

def FmtErr.toPyErr : FmtErr → PyErr
  | .keyErr n => .keyError n
  | .specErr => .formatSpecError

/-- Python `format(i, spec)` for the integer format specs relevant here:
the empty spec, `d`, `Nd` (space padding) and `0Nd` (zero padding).  Other
spec strings are reported as spec errors. -/
def pyFormatInt (i : Int) (spec : Str) : Except FmtErr Str :=
  if spec.isEmpty then .ok (pyStr i)
  else
    let zeroFill := spec.head? = some '0'
    let body := if zeroFill then spec.tail else spec
    let wdigits := body.takeWhile Char.isDigit
    match body.dropWhile Char.isDigit with
    | ['d'] =>
      let w := strToNat wdigits
      if zeroFill then .ok (pyZfill w (pyStr i))
      else .ok (List.replicate (w - (pyStr i).length) ' ' ++ pyStr i)
    | _ => .error .specErr

theorem listLengthDropWhileLe (p : Char → Bool) (l : Str) :
    (l.dropWhile p).length ≤ l.length := by
  induction l with
  | nil => simp
  | cons a t ih =>
    rw [List.dropWhile_cons]
    split
    · exact Nat.le_succ_of_le ih
    · simp

/-- Python `template.format(page=i)` (src/main.py:91): literal text, doubled
braces, and `page` fields with an integer format spec; a field with any other
name raises `KeyError`. -/
def pyFormatPage (i : Int) : Str → Except FmtErr Str
  | [] => .ok []
  | '{' :: '{' :: r => (pyFormatPage i r).map (fun t => '{' :: t)
  | '}' :: '}' :: r => (pyFormatPage i r).map (fun t => '}' :: t)
  | '{' :: r =>
    let field := r.takeWhile (fun c => c ≠ '}')
    match h : r.dropWhile (fun c => c ≠ '}') with
    | [] => .error .specErr
    | _ :: r2 =>
      let name := field.takeWhile (fun c => c ≠ ':')
      let spec := (field.dropWhile (fun c => c ≠ ':')).tail
      if name = ['p', 'a', 'g', 'e'] then
        match pyFormatInt i spec with
        | .error e => .error e
        | .ok v => (pyFormatPage i r2).map (fun t => v ++ t)
      else .error (.keyErr name)
  | '}' :: _ => .error .specErr
  | c :: r => (pyFormatPage i r).map (fun t => c :: t)
termination_by s => s.length
decreasing_by
  all_goals simp only [List.length_cons]
  · omega
  · omega
  · have h1 : (r.dropWhile (fun c => decide (c ≠ '}'))).length ≤ r.length :=
      listLengthDropWhileLe _ r
    rw [h] at h1
    simp only [List.length_cons] at h1
    omega
  · omega

/-- Sequencing of the per-page results of a generator: the first raised
exception aborts the iteration. -/
def seqExcept : List (Except FmtErr Str) → Except PyErr (List Str)
  | [] => .ok []
  | x :: xs =>
    match x with
    | .error e => .error e.toPyErr
    | .ok v => (seqExcept xs).map (fun l => v :: l)

/-- Python `s.replace("{page}", repl)` (src/main.py:94): replace every
occurrence of the six-character literal `"{page}"`, left to right. -/
def replacePagePl (repl : Str) : Str → Str
  | '{' :: 'p' :: 'a' :: 'g' :: 'e' :: '}' :: t => repl ++ replacePagePl repl t
  | c :: t => c :: replacePagePl repl t
  | [] => []

/-- `generate_urls` (src/main.py:67-113): the URL sequence generator. -/
def generate_urls (template : Str) (start : Int) (endP : Option Int)
    (count : Option Int) : Except PyErr (List Str) :=
  if hasPageMarker template then
    let width := (findFmtWidth template).getD 0
    if endP.isNone && count.isNone then .error .valueErrorNoEndCountPage
    else
      let e := match endP with | some e => e | none => start + count.getD 0 - 1
      seqExcept ((pyRange start e).map (fun i =>
        if width ≠ 0 then pyFormatPage i template
        else .ok (replacePagePl (pyStr i) template)))
  else
    match splitLastRun template with
    | none => .error .valueErrorNoDigits
    | some (pre, digitsRun, post) =>
      if endP.isNone && count.isNone then .error .valueErrorNoEndCount
      else
        let e := match endP with | some e => e | none => start + count.getD 0 - 1
        .ok ((pyRange start e).map (fun i =>
          pre ++ pyZfill digitsRun.length (pyStr i) ++ post))

/-- The embedded page number of a URL: the integer value of its last digit
run (`int(list(re.finditer(r"\d+", u))[-1].group(0))`, src/main.py:482-486). -/
def lastNumber (u : Str) : Option Nat :=
  (splitLastRun u).map (fun x => strToNat x.2.1)

/-- `page_str` of the orchestrator loop (src/main.py:482-489): the zero-padded
last digit run of the URL, or `str(printed + 1)` for a digit-free URL. -/
def page_str_of (u : Str) (printed : Nat) : Str :=
  match splitLastRun u with
  | some x => x.2.1
  | none => natToStr (printed + 1)

def jpegStr : Str := ['j', 'p', 'e', 'g']

/-- The image file extension chosen by `main` (src/main.py:495). -/
def extOf (imgFormat : Str) : Str :=
  if imgFormat = jpegStr then ['j', 'p', 'g'] else ['p', 'n', 'g']

/-- `img_name` of the orchestrator loop (src/main.py:495). -/
def img_name (imgPrefix : Str) (imgFormat : Str) (u : Str) (printed : Nat) : Str :=
  imgPrefix ++ page_str_of u printed ++ '.' :: extOf imgFormat

/-! ### Image transform stage (src/main.py:135-169) -/

/-- The Pillow operations applied by `apply_white_black_effect`, in call
order. -/
inductive PilOp where
  | convertRGB
  | enhanceBrightness (factor : ℚ)
  | enhanceContrast (factor : ℚ)
  | grayscale
  | savePNG (compressLevel : Nat)
  deriving DecidableEq

def rgbMode : Str := ['R', 'G', 'B']
def lMode : Str := ['L']

/-- The environment of one transform call: whether Pillow imported, whether
`Image.open` succeeds, and the mode of the opened image. -/
structure TransformEnv where
  pillowAvailable : Bool
  openOk : Bool
  mode : Str

/-- `apply_white_black_effect` (src/main.py:135-169): returns the success flag
and the sequence of Pillow operations performed on the opened image. -/
def apply_white_black_effect (env : TransformEnv) : Bool × List PilOp :=
  if !env.pillowAvailable then (false, [])
  else if !env.openOk then (false, [])
  else
    (true,
      (if env.mode ≠ rgbMode ∧ env.mode ≠ lMode then [PilOp.convertRGB] else []) ++
        [PilOp.enhanceBrightness (7 / 10), PilOp.enhanceContrast (8 / 5),
          PilOp.grayscale, PilOp.savePNG 6])

/-- The image mode resulting from a sequence of Pillow operations. -/
def modeAfterOps (m : Str) : List PilOp → Str
  | [] => m
  | op :: rest =>
    modeAfterOps
      (match op with
        | PilOp.convertRGB => rgbMode
        | PilOp.grayscale => lMode
        | _ => m) rest

/-! ### PDF assembly (src/main.py:172-204) -/

/-- Python string comparison: lexicographic by character code point. -/
def strLe : Str → Str → Bool
  | [], _ => true
  | _ :: _, [] => false
  | a :: as, b :: bs =>
    if a.toNat < b.toNat then true
    else if b.toNat < a.toNat then false
    else strLe as bs

def strLeRel : Str → Str → Prop := fun a b => strLe a b = true

instance : DecidableRel strLeRel := fun a b =>
  inferInstanceAs (Decidable (strLe a b = true))

def pngExt : Str := ['.', 'p', 'n', 'g']
def pdfExt : Str := ['.', 'p', 'd', 'f']

/-- `sorted(image_dir.glob("*.png"))` (src/main.py:182): the files of the
image directory ending in `".png"`, sorted by name. -/
def pdfEligible (dirFiles : List Str) : List Str :=
  List.insertionSort strLeRel (dirFiles.filter (fun f => decide (pngExt <:+ f)))

/-- `Path.stem`: the file name without its final suffix (no suffix is removed
when the only dot is leading or trailing). -/
def stemOf (name : Str) : Str :=
  let rev := name.reverse
  let afterDot := rev.takeWhile (fun c => c ≠ '.')
  match rev.dropWhile (fun c => c ≠ '.') with
  | [] => name
  | _ :: pre => if pre.isEmpty || afterDot.isEmpty then name else pre.reverse

/-- `convert_images_to_pdf` (src/main.py:172-204).  `dirFiles` is the listing
of `image_dir`; the second component of the result lists the PDF files
written, each with the ordered images it contains. -/
def convert_images_to_pdf (img2pdfAvailable : Bool) (dirFiles : List Str)
    (pdfDir : Str) (mergeAll : Bool) (outputName : Str) :
    Bool × List (Str × List Str) :=
  if !img2pdfAvailable then (false, [])
  else
    let images := pdfEligible dirFiles
    if images.isEmpty then (false, [])
    else if mergeAll then (true, [(pdfDir ++ '/' :: outputName, images)])
    else
      (true, images.map (fun img => (pdfDir ++ '/' :: (stemOf img ++ pdfExt), [img])))

/-- `sorted(source_dir.glob(f"*.{args.img_format}"))` (src/main.py:531): the
selection fed to the black-white transform stage. -/
def bwGlobSelection (dirFiles : List Str) (imgFormat : Str) : List Str :=
  List.insertionSort strLeRel (dirFiles.filter (fun f => decide (('.' :: imgFormat) <:+ f)))

/-! ### Page capture unit (src/main.py:230-353) -/

/-- The object returned by the background-probing `page.evaluate` call
(src/main.py:272-288). -/
structure BgInfo where
  hasEl : Bool
  backgroundImage : Option Str
  width : ℚ
  height : ℚ
  x : ℚ
  y : ℚ
  deriving DecidableEq

/-- A bounding box returned by `locator.bounding_box()` (src/main.py:322). -/
structure Box where
  x : ℚ
  y : ℚ
  width : ℚ
  height : ℚ

/-- The integer clip rectangle of src/main.py:325. -/
structure IntClip where
  x : Int
  y : Int
  width : Int
  height : Int
  deriving DecidableEq

/-- The clip rectangle passed to `page.screenshot` (src/main.py:341-346);
its float values are integral, so they are kept as integers. -/
structure ShotClip where
  x : Int
  y : Int
  width : Int
  height : Int
  deriving DecidableEq

/-- The arguments of the `page.screenshot` call (src/main.py:330-348). -/
structure Shot where
  path : Str
  shotType : Str
  fullPage : Bool
  quality : Option Nat
  clip : Option ShotClip
  deriving DecidableEq

/-- Browser resource events emitted by one capture. -/
inductive Ev where
  | pwEnter
  | browserLaunch
  | browserClose
  | pwExit
  deriving DecidableEq

/-- The environment of one capture call: the result of each external
browser-side operation, `none` meaning that the operation raised. -/
structure CaptureEnv where
  playwrightImport : Option Unit
  startPw : Option Unit
  launch : Option Unit
  newPage : Option Unit
  setViewport : Option Unit
  goto : Option Unit
  detectContainer : Option (Option Str)
  evalBgInfo : Option (Option BgInfo)
  addStyle1 : Option Unit
  addStyle2 : Option Unit
  boundingBox : Option (Option Box)
  screenshot : Option Unit
  closeBrowser : Option Unit

/-- The parameters of `generate_image_playwright` (src/main.py:230-239). -/
structure CaptureOpts where
  url : Str
  outPath : Str
  imgFormat : Str
  timeout : Int
  pageSelector : Option Str
  clipPadding : Int
  fullPage : Bool
  injectCss : Bool

/-- Python `int()` on a rational: truncation toward zero. -/
def pyInt (q : ℚ) : Int := if q < 0 then -((-q).floor) else q.floor

def defaultContainerSel : Str :=
  ['#', 'P', 'a', 'g', 'e', 'C', 'o', 'n', 't', 'a', 'i', 'n', 'e', 'r', '3']

def noneLit : Str := ['n', 'o', 'n', 'e']

/-- Scan for the first `"url("` occurrence (src/main.py:310). -/
def afterUrlParen : Str → Option Str
  | 'u' :: 'r' :: 'l' :: '(' :: r => some r
  | _ :: t => afterUrlParen t
  | [] => none

def quoteChars : List Char := [Char.ofNat 34, Char.ofNat 39]

def stripLeadQuote (l : Str) : Str :=
  match l with
  | c :: r => if c ∈ quoteChars then r else l
  | [] => []

def stripTrailQuote (l : Str) : Str := (stripLeadQuote l.reverse).reverse

/-- The regex extraction of the background-image URL
(`re.search(r'url\((?:"|\x27)?(.*?)(?:"|\x27)?\)', s)`, src/main.py:310):
the quote-stripped content of the first `url(…)` group. -/
def extractBgUrl (s : Str) : Option Str :=
  match afterUrlParen s with
  | none => none
  | some r =>
    if (r.dropWhile (fun c => c ≠ ')')).isEmpty then none
    else some (stripTrailQuote (stripLeadQuote (r.takeWhile (fun c => c ≠ ')'))))

/-- The outcome of one capture: the returned flag, the resource events, and
the screenshot written (if the `page.screenshot` call ran to completion). -/
structure CaptureOutcome where
  success : Bool
  events : List Ev
  shot : Option Shot

/-- The screenshot phase (src/main.py:329-349): build the argument record,
take the screenshot, close the browser. -/
def finishShot (env : CaptureEnv) (o : CaptureOpts) (clip : Option IntClip) :
    Bool × List Ev × Option Shot :=
  let lf := o.imgFormat.map Char.toLower
  let jpegSel := lf = jpegStr || lf = ['j', 'p', 'g']
  let shotArgs : Shot :=
    { path := o.outPath
      shotType := if jpegSel then jpegStr else ['p', 'n', 'g']
      fullPage := o.fullPage
      quality := if jpegSel then some 90 else none
      clip :=
        if !o.fullPage && clip.isSome then
          clip.map (fun c =>
            { x := c.x - o.clipPadding
              y := c.y - o.clipPadding
              width := c.width + o.clipPadding * 2
              height := c.height + o.clipPadding * 2 })
        else none }
  match env.screenshot with
  | none => (false, [], none)
  | some _ =>
    match env.closeBrowser with
    | none => (false, [], some shotArgs)
    | some _ => (true, [Ev.browserClose], some shotArgs)

/-- Truthiness test of `bg_info and bg_info.get("backgroundImage") and
bg_info.get("backgroundImage") != 'none'` (src/main.py:303). -/
def bgStrOf (bgResult : Option BgInfo) : Option Str :=
  match bgResult with
  | some bg =>
    match bg.backgroundImage with
    | some s => if s ≠ [] ∧ s ≠ noneLit then some s else none
    | none => none
  | none => none

/-- The integer clip rectangle of src/main.py:321-327: `none` both when
`bounding_box()` raised and when it returned no box. -/
def clipOf (env : CaptureEnv) : Option IntClip :=
  match env.boundingBox with
  | some (some b) => some ⟨pyInt b.x, pyInt b.y, pyInt b.width, pyInt b.height⟩
  | _ => none

/-- Background handling and clip computation (src/main.py:301-327). -/
def afterBg (env : CaptureEnv) (o : CaptureOpts) (bgResult : Option BgInfo) :
    Bool × List Ev × Option Shot :=
  match bgStrOf bgResult with
  | none => finishShot env o none
  | some s =>
    match (if (extractBgUrl s).isSome && o.injectCss then env.addStyle2 else some ()) with
    | none => (false, [], none)
    | some _ => finishShot env o (clipOf env)

/-- The selector used for the page: the explicit override, or the detected
container with the hardcoded fallback (src/main.py:256-270). -/
def selOf (env : CaptureEnv) (o : CaptureOpts) : Option Str :=
  match o.pageSelector with
  | some sel => some sel
  | none => env.detectContainer.map (fun det => det.getD defaultContainerSel)

/-- Selector resolution, background probe and CSS injection
(src/main.py:251-299). -/
def afterGoto (env : CaptureEnv) (o : CaptureOpts) : Bool × List Ev × Option Shot :=
  match selOf env o, env.evalBgInfo,
      (if o.injectCss then env.addStyle1 else some ()) with
  | some _, some bgResult, some _ => afterBg env o bgResult
  | _, _, _ => (false, [], none)

/-- The body of the `with sync_playwright()` block (src/main.py:245-349). -/
def captureWithBody (env : CaptureEnv) (o : CaptureOpts) : Bool × List Ev × Option Shot :=
  match env.launch with
  | none => (false, [], none)
  | some _ =>
    match env.newPage, env.setViewport, env.goto with
    | some _, some _, some _ =>
      match afterGoto env o with
      | (ok, evs, shot) => (ok, Ev.browserLaunch :: evs, shot)
    | _, _, _ => (false, [Ev.browserLaunch], none)

/-- `generate_image_playwright` (src/main.py:230-353): the whole capture is
wrapped in `try: … except: return False`, and the `with sync_playwright()`
block guarantees its exit handler on every path out of the body. -/
def generate_image_playwright (env : CaptureEnv) (o : CaptureOpts) : CaptureOutcome :=
  match env.playwrightImport with
  | none => ⟨false, [], none⟩
  | some _ =>
    match env.startPw with
    | none => ⟨false, [], none⟩
    | some _ =>
      match captureWithBody env o with
      | (ok, evs, shot) => ⟨ok, Ev.pwEnter :: (evs ++ [Ev.pwExit]), shot⟩

/-- Number of live browsers after one resource event: the playwright scope
exit releases everything launched inside it. -/
def liveStep (n : Nat) : Ev → Nat
  | Ev.browserLaunch => n + 1
  | Ev.browserClose => n - 1
  | Ev.pwExit => 0
  | Ev.pwEnter => n

/-- Number of live browsers after a trace of resource events. -/
def liveAfter (evs : List Ev) : Nat := evs.foldl liveStep 0

/-! ### Orchestrator loop (src/main.py:470-516) -/

/-- The run options consumed by the per-page loop. -/
structure RunCfg where
  checkHead : Bool
  printOnly : Bool
  skipExisting : Bool
  imgPrefix : Str
  imgFormat : Str
  outDir : Str
  limit : Option Int

/-- The ambient world of the loop: whether `requests` imported, the initial
file system, and the per-page capture outcome. -/
structure RunEnv where
  requestsAvailable : Bool
  fs0 : Str → Bool
  capture : Str → Str → Bool

inductive PageAction where
  | printedOnly
  | skipped
  | wroteImg
  | failedImg
  deriving DecidableEq

/-- The record of one processed page. -/
structure PageRec where
  url : Str
  imgPath : Str
  existed : Bool
  action : PageAction

/-- The aggregate result of the loop: processed pages, files written, browser
capture invocations (most recent first), and an early-exit code. -/
structure LoopOut where
  pages : List PageRec
  written : List Str
  calls : List Str
  exitCode : Option Nat

/-- Python truthiness of `args.limit` (src/main.py:515). -/
def limitTruthy : Option Int → Bool
  | none => false
  | some l => l != 0

/-- The image path of a page: `out_dir / img_name` (src/main.py:495-496). -/
def pagePathOf (cfg : RunCfg) (u : Str) (printed : Nat) : Str :=
  cfg.outDir ++ '/' :: img_name cfg.imgPrefix cfg.imgFormat u printed

/-- `img_path.exists()` against the initial file system plus the files written
earlier in this run. -/
def pageExists (cfg : RunCfg) (env : RunEnv) (u : Str) (printed : Nat)
    (written : List Str) : Bool :=
  env.fs0 (pagePathOf cfg u printed) || written.contains (pagePathOf cfg u printed)

/-- The image-producing part of one loop iteration (src/main.py:494-512):
the action taken, the updated written-file list and the updated list of
browser invocations. -/
def loopStep (cfg : RunCfg) (env : RunEnv) (u : Str) (printed : Nat)
    (written calls : List Str) : PageAction × List Str × List Str :=
  if cfg.printOnly then (PageAction.printedOnly, written, calls)
  else if cfg.skipExisting && pageExists cfg env u printed written then
    (PageAction.skipped, written, calls)
  else if env.capture u (pagePathOf cfg u printed) then
    (PageAction.wroteImg, pagePathOf cfg u printed :: written, u :: calls)
  else (PageAction.failedImg, written, u :: calls)

/-- The per-page loop of `main` (src/main.py:470-516): head check, filename
derivation, skip-existing short-circuit, capture, counter increment and limit
break. -/
def main_page_loop (cfg : RunCfg) (env : RunEnv) :
    List Str → Nat → List Str → List Str → LoopOut
  | [], _, written, calls => ⟨[], written, calls, none⟩
  | u :: rest, printed, written, calls =>
    if cfg.checkHead && !env.requestsAvailable then ⟨[], written, calls, some 2⟩
    else
      let step := loopStep cfg env u printed written calls
      let r : PageRec :=
        ⟨u, pagePathOf cfg u printed, pageExists cfg env u printed written, step.1⟩
      if limitTruthy cfg.limit && decide ((printed + 1 : Int) ≥ cfg.limit.getD 0) then
        ⟨[r], step.2.1, step.2.2, none⟩
      else
        let out := main_page_loop cfg env rest (printed + 1) step.2.1 step.2.2
        ⟨r :: out.pages, out.written, out.calls, out.exitCode⟩

/-- The number of pages the loop handles: every page counts toward the limit,
independently of skips and capture failures. -/
def pagesTaken (limit : Option Int) : Nat → Nat → Nat
  | _, 0 => 0
  | printed, Nat.succ n =>
    if limitTruthy limit && decide ((printed + 1 : Int) ≥ limit.getD 0) then 1
    else 1 + pagesTaken limit (printed + 1) n

/-! ### Support lemmas for the URL generator -/

theorem takeWhile_append_all {p : Char → Bool} :
    ∀ (l r : Str), (∀ c ∈ l, p c = true) → (l ++ r).takeWhile p = l ++ r.takeWhile p
  | [], r, _ => by simp
  | a :: t, r, h => by
    have ha : p a = true := h a (by simp)
    simp only [List.cons_append, List.takeWhile_cons_of_pos ha]
    rw [takeWhile_append_all t r (fun c hc => h c (by simp [hc]))]

theorem dropWhile_append_all {p : Char → Bool} :
    ∀ (l r : Str), (∀ c ∈ l, p c = true) → (l ++ r).dropWhile p = r.dropWhile p
  | [], r, _ => by simp
  | a :: t, r, h => by
    have ha : p a = true := h a (by simp)
    simp only [List.cons_append, List.dropWhile_cons_of_pos ha]
    exact dropWhile_append_all t r (fun c hc => h c (by simp [hc]))

/-- Soundness of `splitLastRun`: the three parts recompose the string, the run
is a nonempty digit string, the tail is digit-free and the head part does not
end in a digit. -/
theorem splitLastRun_spec {s pre d post : Str} (h : splitLastRun s = some (pre, d, post)) :
    s = pre ++ d ++ post ∧ d ≠ [] ∧ (∀ c ∈ d, c.isDigit = true) ∧
      (∀ c ∈ post, c.isDigit = false) ∧
      (pre = [] ∨ ∃ q c, pre = q ++ [c] ∧ c.isDigit = false) := by
  simp only [splitLastRun] at h
  cases hm : s.reverse.dropWhile (fun c => !c.isDigit) with
  | nil => rw [hm] at h; simp at h
  | cons a t =>
    rw [hm] at h
    simp only [Option.some.injEq, Prod.mk.injEq] at h
    obtain ⟨hpre, hd, hpost⟩ := h
    have hane : s.reverse.dropWhile (fun c => !c.isDigit) ≠ [] := by simp [hm]
    have ha : (!((s.reverse.dropWhile (fun c => !c.isDigit)).head hane).isDigit) = false :=
      List.head_dropWhile_not _ _ hane
    have ha2 : a.isDigit = true := by
      have : (s.reverse.dropWhile (fun c => !c.isDigit)).head hane = a := by
        simp [hm]
      rw [this] at ha
      simpa using ha
    have hsplit1 : s.reverse.takeWhile (fun c => !c.isDigit) ++ (a :: t) = s.reverse := by
      rw [← hm]; exact List.takeWhile_append_dropWhile _ _
    have hsplit2 : (a :: t).takeWhile Char.isDigit ++ (a :: t).dropWhile Char.isDigit
        = a :: t := List.takeWhile_append_dropWhile _ _
    refine ⟨?_, ?_, ?_, ?_, ?_⟩
    · have : s = ((s.reverse.takeWhile (fun c => !c.isDigit)) ++ (a :: t)).reverse := by
        rw [hsplit1, List.reverse_reverse]
      rw [this, ← hsplit2]
      simp only [List.reverse_append, ← hpre, ← hd, ← hpost]
    · rw [← hd]
      have : (a :: t).takeWhile Char.isDigit = a :: t.takeWhile Char.isDigit :=
        List.takeWhile_cons_of_pos ha2
      simp [this]
    · intro c hc
      rw [← hd, List.mem_reverse] at hc
      exact List.mem_takeWhile_imp hc
    · intro c hc
      rw [← hpost, List.mem_reverse] at hc
      have := List.mem_takeWhile_imp hc
      simpa using this
    · rw [← hpre]
      cases hdw : (a :: t).dropWhile Char.isDigit with
      | nil => left; simp
      | cons b u =>
        right
        have hbne : (a :: t).dropWhile Char.isDigit ≠ [] := by simp [hdw]
        have hb : (((a :: t).dropWhile Char.isDigit).head hbne).isDigit = false :=
          List.head_dropWhile_not _ _ hbne
        have hb2 : b.isDigit = false := by
          have : ((a :: t).dropWhile Char.isDigit).head hbne = b := by simp [hdw]
          rwa [this] at hb
        exact ⟨u.reverse, b, by simp [hdw], hb2⟩

/-- Completeness of `splitLastRun`: a decomposition with a nonempty digit run,
digit-free tail and non-digit-ending head is returned verbatim. -/
theorem splitLastRun_eq {pre d post : Str}
    (hd : d ≠ []) (hdd : ∀ c ∈ d, c.isDigit = true)
    (hpost : ∀ c ∈ post, c.isDigit = false)
    (hpre : pre = [] ∨ ∃ q c, pre = q ++ [c] ∧ c.isDigit = false) :
    splitLastRun (pre ++ d ++ post) = some (pre, d, post) := by
  obtain ⟨b, bd, hbrev⟩ : ∃ b bd, d.reverse = b :: bd := by
    cases hm : d.reverse with
    | nil => exact absurd (by simpa using hm) hd
    | cons b bd => exact ⟨b, bd, rfl⟩
  have hb : b.isDigit = true := hdd b (by rw [← List.mem_reverse, hbrev]; simp)
  have hbd : ∀ c ∈ bd, c.isDigit = true := by
    intro c hc
    exact hdd c (by rw [← List.mem_reverse, hbrev]; simp [hc])
  have hpostrev : ∀ c ∈ post.reverse, (!c.isDigit) = true := by
    intro c hc; rw [List.mem_reverse] at hc; simp [hpost c hc]
  have hrev : (pre ++ d ++ post).reverse = post.reverse ++ (b :: (bd ++ pre.reverse)) := by
    simp only [List.reverse_append, hbrev]
    simp
  simp only [splitLastRun, hrev]
  rw [dropWhile_append_all _ _ hpostrev]
  have hbneg : (!b.isDigit) = false := by simp [hb]
  rw [List.dropWhile_cons_of_neg (by simp [hbneg])]
  have htw : (b :: (bd ++ pre.reverse)).takeWhile Char.isDigit = b :: bd := by
    rw [List.takeWhile_cons_of_pos hb, takeWhile_append_all _ _ hbd]
    rcases hpre with hnil | ⟨q, c, hqc, hcd⟩
    · simp [hnil]
    · have : pre.reverse = c :: q.reverse := by simp [hqc]
      rw [this, List.takeWhile_cons_of_neg (by simp [hcd])]
      simp
  have hdw : (b :: (bd ++ pre.reverse)).dropWhile Char.isDigit = pre.reverse := by
    rw [List.dropWhile_cons_of_pos hb, dropWhile_append_all _ _ hbd]
    rcases hpre with hnil | ⟨q, c, hqc, hcd⟩
    · simp [hnil]
    · have : pre.reverse = c :: q.reverse := by simp [hqc]
      rw [this, List.dropWhile_cons_of_neg (by simp [hcd]), ← this]
  have htw2 : (post.reverse ++ (b :: (bd ++ pre.reverse))).takeWhile (fun c => !c.isDigit)
      = post.reverse := by
    rw [takeWhile_append_all _ _ hpostrev, List.takeWhile_cons_of_neg (by simp [hbneg])]
    simp
  simp only [htw, hdw, htw2]
  have : (b :: bd).reverse = d := by rw [← hbrev]; simp
  simp [this]

/-- A string with no digits has no last digit run. -/
theorem splitLastRun_eq_none {s : Str} (h : ∀ c ∈ s, c.isDigit = false) :
    splitLastRun s = none := by
  simp only [splitLastRun]
  have : s.reverse.dropWhile (fun c => !c.isDigit) = [] := by
    rw [List.dropWhile_eq_nil_iff]
    intro c hc
    rw [List.mem_reverse] at hc
    simp [h c hc]
  rw [this]

/-- A string whose last digit run exists has a digit. -/
theorem exists_digit_of_splitLastRun {s : Str} (h : splitLastRun s ≠ none) :
    ¬ ∀ c ∈ s, c.isDigit = false := by
  intro hall
  exact h (splitLastRun_eq_none hall)

/-! ### Support lemmas for decimal rendering -/

theorem natDigitsRev_eq_digits : ∀ (fuel n : Nat), n ≤ fuel → natDigitsRev fuel n = Nat.digits 10 n
  | 0, n, h => by
    have : n = 0 := Nat.le_zero.mp h
    simp [natDigitsRev, this]
  | fuel + 1, n, h => by
    by_cases hn : n = 0
    · simp [natDigitsRev, hn]
    · have hrec : n / 10 ≤ fuel := by
        have h1 : n / 10 < n := Nat.div_lt_self (Nat.pos_of_ne_zero hn) (by norm_num)
        omega
      rw [natDigitsRev, if_neg hn, natDigitsRev_eq_digits fuel (n / 10) hrec,
        Nat.digits_def' (by norm_num : (1:Nat) < 10) (Nat.pos_of_ne_zero hn)]

theorem natToStr_eq (n : Nat) :
    natToStr n = if n = 0 then [digitChar10 0] else ((Nat.digits 10 n).map digitChar10).reverse := by
  unfold natToStr
  rw [natDigitsRev_eq_digits n n (le_refl n)]

theorem digitChar10_toNat {d : Nat} (h : d < 10) : (digitChar10 d).toNat = 48 + d := by
  interval_cases d <;> decide

theorem digitChar10_isDigit {d : Nat} (h : d < 10) : (digitChar10 d).isDigit = true := by
  interval_cases d <;> decide

theorem isDigit_not_sign {c : Char} (h : c.isDigit = true) : ¬(c = '-' ∨ c = '+') := by
  rintro (rfl | rfl) <;> exact absurd h (by decide)

theorem natToStr_ne_nil (n : Nat) : natToStr n ≠ [] := by
  rw [natToStr_eq]
  split
  · simp
  · have hd : Nat.digits 10 n ≠ [] := Nat.digits_ne_nil_iff_ne_zero.mpr (by assumption)
    simp [hd]

theorem natToStr_all_digits {n : Nat} : ∀ c ∈ natToStr n, c.isDigit = true := by
  intro c hc
  rw [natToStr_eq] at hc
  split at hc
  · simp at hc
    subst hc
    decide
  · rw [List.mem_reverse] at hc
    obtain ⟨d, hd, rfl⟩ := List.mem_map.mp hc
    exact digitChar10_isDigit (Nat.digits_lt_base (by norm_num) hd)

theorem foldr_digits_value : ∀ (L : List Nat), (∀ d ∈ L, d < 10) →
    L.foldr (fun d a => 10 * a + ((digitChar10 d).toNat - 48)) 0 = Nat.ofDigits 10 L
  | [], _ => by simp [Nat.ofDigits_nil]
  | d :: L, h => by
    have hd : d < 10 := h d (by simp)
    rw [List.foldr_cons, foldr_digits_value L (fun x hx => h x (by simp [hx])),
      Nat.ofDigits_cons, digitChar10_toNat hd]
    omega

theorem strToNat_natToStr (n : Nat) : strToNat (natToStr n) = n := by
  rw [natToStr_eq]
  split
  · subst n
    decide
  · unfold strToNat
    rw [List.foldl_reverse, List.foldr_map]
    have hlt : ∀ d ∈ Nat.digits 10 n, d < 10 :=
      fun d hd => Nat.digits_lt_base (by norm_num) hd
    calc (Nat.digits 10 n).foldr (fun x y => 10 * y + ((digitChar10 x).toNat - 48)) 0
        = Nat.ofDigits 10 (Nat.digits 10 n) := foldr_digits_value _ hlt
      _ = n := Nat.ofDigits_digits 10 n

theorem foldl_zeros (k : Nat) :
    (List.replicate k '0').foldl (fun a c => 10 * a + (c.toNat - 48)) 0 = 0 := by
  induction k with
  | zero => rfl
  | succ m ih => simpa [List.replicate_succ] using ih

theorem strToNat_zeros_append (k : Nat) (s : Str) :
    strToNat (List.replicate k '0' ++ s) = strToNat s := by
  unfold strToNat
  rw [List.foldl_append, foldl_zeros]

theorem pyZfill_digits (w : Nat) {s : Str} (hs : s ≠ []) (h : ∀ c ∈ s, c.isDigit = true) :
    pyZfill w s = List.replicate (w - s.length) '0' ++ s := by
  cases s with
  | nil => exact absurd rfl hs
  | cons c t =>
    have hc := h c (by simp)
    simp only [pyZfill]
    rw [if_neg (isDigit_not_sign hc)]
    simp

theorem pyStr_ofNat {i : Int} (h : 0 ≤ i) : pyStr i = natToStr i.toNat := by
  unfold pyStr
  rw [if_neg (by omega)]

theorem padded_ne_nil (w n : Nat) : pyZfill w (natToStr n) ≠ [] := by
  rw [pyZfill_digits w (natToStr_ne_nil n) natToStr_all_digits]
  simp [natToStr_ne_nil n]

theorem padded_all_digits (w n : Nat) : ∀ c ∈ pyZfill w (natToStr n), c.isDigit = true := by
  rw [pyZfill_digits w (natToStr_ne_nil n) natToStr_all_digits]
  intro c hc
  rcases List.mem_append.mp hc with hz | hs
  · rw [List.eq_of_mem_replicate hz]
    decide
  · exact natToStr_all_digits c hs

theorem strToNat_padded (w n : Nat) : strToNat (pyZfill w (natToStr n)) = n := by
  rw [pyZfill_digits w (natToStr_ne_nil n) natToStr_all_digits, strToNat_zeros_append,
    strToNat_natToStr]

/-- The split of a URL built by inserting a padded page number between a
non-digit-ending head and a digit-free tail. -/
theorem splitLastRun_insert {pre post : Str} (w n : Nat)
    (hpost : ∀ c ∈ post, c.isDigit = false)
    (hpre : pre = [] ∨ ∃ q c, pre = q ++ [c] ∧ c.isDigit = false) :
    splitLastRun (pre ++ pyZfill w (natToStr n) ++ post)
      = some (pre, pyZfill w (natToStr n), post) :=
  splitLastRun_eq (padded_ne_nil w n) (padded_all_digits w n) hpost hpre

theorem lastNumber_insert {pre post : Str} (w n : Nat)
    (hpost : ∀ c ∈ post, c.isDigit = false)
    (hpre : pre = [] ∨ ∃ q c, pre = q ++ [c] ∧ c.isDigit = false) :
    lastNumber (pre ++ pyZfill w (natToStr n) ++ post) = some n := by
  unfold lastNumber
  rw [splitLastRun_insert w n hpost hpre]
  simp [strToNat_padded]

theorem splitLastRun_none_iff {s : Str} :
    splitLastRun s = none ↔ ∀ c ∈ s, c.isDigit = false := by
  constructor
  · intro h c hc
    simp only [splitLastRun] at h
    cases hm : s.reverse.dropWhile (fun c => !c.isDigit) with
    | cons a t => rw [hm] at h; simp at h
    | nil =>
      have hall := List.dropWhile_eq_nil_iff.mp hm
      have hc2 := hall c (List.mem_reverse.mpr hc)
      simpa using hc2
  · exact splitLastRun_eq_none

theorem pyRange_length (a b : Int) : (pyRange a b).length = (b + 1 - a).toNat := by
  simp [pyRange]

theorem pyRange_getElem (a b : Int) (k : Nat) (hk : k < (pyRange a b).length) :
    (pyRange a b)[k] = a + (k : Int) := by
  unfold pyRange at hk ⊢
  rw [List.getElem_map]
  simp

/-- Evaluation of `generate_urls` on the digit-run branch. -/
theorem generate_urls_digit {template pre d post : Str} {start : Int}
    (endP count : Option Int)
    (hmark : hasPageMarker template = false)
    (hsplit : splitLastRun template = some (pre, d, post))
    (hec : endP ≠ none ∨ count ≠ none) :
    generate_urls template start endP count
      = .ok ((pyRange start (endP.getD (start + count.getD 0 - 1))).map
          (fun i => pre ++ pyZfill d.length (pyStr i) ++ post)) := by
  unfold generate_urls
  rw [if_neg (by simp [hmark]), hsplit]
  have hb : (endP.isNone && count.isNone) = false := by
    rcases hec with h | h <;> cases endP <;> cases count <;> simp_all
  dsimp only
  rw [if_neg (by simp [hb])]
  cases endP <;> rfl

theorem seqExcept_error {l : List (Except FmtErr Str)} {e : PyErr}
    (h : seqExcept l = .error e) : ∃ fe : FmtErr, e = fe.toPyErr := by
  induction l with
  | nil => simp [seqExcept] at h
  | cons x xs ih =>
    simp only [seqExcept] at h
    match x with
    | .error f =>
      simp only [Except.error.injEq] at h
      exact ⟨f, h.symm⟩
    | .ok v =>
      cases hx : seqExcept xs with
      | error f =>
        rw [hx] at h
        simp only [Except.map] at h
        cases h
        exact ih hx
      | ok l2 => rw [hx] at h; simp [Except.map] at h

theorem toPyErr_not_config (fe : FmtErr) : isConfigError fe.toPyErr = false := by
  cases fe <;> rfl

/-- C5: `generate_urls` fails with a `ConfigurationError` in exactly two cases:
the template has neither a `{page` marker nor any decimal digit, or both `end`
and `count` are omitted; in either case no URL list is produced. -/
theorem generate_urls_config_error_iff (template : Str) (start : Int)
    (endP count : Option Int) :
    (∃ e, generate_urls template start endP count = .error e ∧ isConfigError e = true) ↔
      ((hasPageMarker template = false ∧ ∀ c ∈ template, c.isDigit = false) ∨
        (endP = none ∧ count = none)) := by
  constructor
  · rintro ⟨e, he, hce⟩
    unfold generate_urls at he
    by_cases hm : hasPageMarker template = true
    · rw [if_pos (by simp [hm])] at he
      by_cases hec : (endP.isNone && count.isNone) = true
      · right
        cases endP <;> cases count <;> simp_all
      · rw [if_neg hec] at he
        obtain ⟨fe, rfl⟩ := seqExcept_error he
        rw [toPyErr_not_config] at hce
        cases hce
    · rw [if_neg (by simpa using hm)] at he
      cases hsp : splitLastRun template with
      | none =>
        left
        exact ⟨by simpa using hm, splitLastRun_none_iff.mp hsp⟩
      | some x =>
        obtain ⟨pre, d, post⟩ := x
        rw [hsp] at he
        dsimp only at he
        by_cases hec : (endP.isNone && count.isNone) = true
        · right
          cases endP <;> cases count <;> simp_all
        · rw [if_neg hec] at he
          simp at he
  · rintro (⟨hm, hdig⟩ | ⟨he1, he2⟩)
    · refine ⟨.valueErrorNoDigits, ?_, rfl⟩
      unfold generate_urls
      rw [if_neg (by simp [hm]), splitLastRun_eq_none hdig]
    · subst he1
      subst he2
      by_cases hm : hasPageMarker template = true
      · refine ⟨.valueErrorNoEndCountPage, ?_, rfl⟩
        unfold generate_urls
        rw [if_pos (by simp [hm]), if_pos (by simp)]
      · unfold generate_urls
        rw [if_neg (by simpa using hm)]
        cases hsp : splitLastRun template with
        | none => exact ⟨.valueErrorNoDigits, rfl, rfl⟩
        | some x =>
          obtain ⟨pre, d, post⟩ := x
          refine ⟨.valueErrorNoEndCount, ?_, rfl⟩
          dsimp only
          rw [if_pos (by simp)]

/-! ### Claim theorems -/

/-- C1 (amended): for every template URL that contains no `"{page"` marker and
has a last decimal digit run, and for every start ≥ 0 and count ≥ 1 (with no
explicit end), `generate_urls` produces exactly `count` URLs whose embedded
page numbers (the value of each URL's last digit run) are
`start, start+1, …, start+count−1`, strictly increasing in that order. -/
theorem generate_urls_count_indices (template pre d post : Str) (start cnt : Int)
    (hmark : hasPageMarker template = false)
    (hsplit : splitLastRun template = some (pre, d, post))
    (hstart : 0 ≤ start) (hcnt : 1 ≤ cnt) :
    ∃ urls, generate_urls template start none (some cnt) = .ok urls ∧
      urls.length = cnt.toNat ∧
      ∀ k (hk : k < urls.length), lastNumber (urls.get ⟨k, hk⟩) = some (start.toNat + k) := by
  have hgen := @generate_urls_digit template pre d post start
    none (some cnt) hmark hsplit (Or.inr (by simp))
  obtain ⟨-, -, -, hpost, hpre⟩ := splitLastRun_spec hsplit
  refine ⟨_, hgen, ?_, ?_⟩
  · rw [List.length_map, pyRange_length]
    simp only [Option.getD_some, Option.getD_none]
    omega
  · intro k hk
    have hk2 : k < (pyRange start ((none : Option Int).getD
        (start + (some cnt : Option Int).getD 0 - 1))).length := by
      simpa using hk
    have hget : (((pyRange start ((none : Option Int).getD
          (start + (some cnt : Option Int).getD 0 - 1))).map
            (fun i => pre ++ pyZfill d.length (pyStr i) ++ post)).get ⟨k, hk⟩)
        = pre ++ pyZfill d.length (pyStr (start + (k : Int))) ++ post := by
      rw [List.get_eq_getElem, List.getElem_map, pyRange_getElem _ _ k hk2]
    rw [hget, pyStr_ofNat (by omega)]
    have hcast : (start + (k : Int)).toNat = start.toNat + k := by omega
    rw [hcast]
    exact lastNumber_insert d.length (start.toNat + k) hpost hpre

/-- C1 witness: the amended statement at the template `"page0001.xhtml"`,
start 2, count 3. -/
theorem generate_urls_count_indices_witness :
    hasPageMarker ['p','a','g','e','0','0','0','1','.','x','h','t','m','l'] = false ∧
    splitLastRun ['p','a','g','e','0','0','0','1','.','x','h','t','m','l']
      = some (['p','a','g','e'], ['0','0','0','1'], ['.','x','h','t','m','l']) ∧
    (0 : Int) ≤ 2 ∧ (1 : Int) ≤ 3 ∧
    (∃ urls, generate_urls ['p','a','g','e','0','0','0','1','.','x','h','t','m','l']
        2 none (some 3) = .ok urls ∧
      urls.length = (3 : Int).toNat ∧
      ∀ k (hk : k < urls.length), lastNumber (urls.get ⟨k, hk⟩) = some ((2 : Int).toNat + k)) :=
  ⟨by decide, by decide, by decide, by decide,
    generate_urls_count_indices ['p','a','g','e','0','0','0','1','.','x','h','t','m','l']
      ['p','a','g','e'] ['0','0','0','1'] ['.','x','h','t','m','l'] 2 3
      (by decide) (by decide) (by decide) (by decide)⟩

/-- C1 counterexample: the claim as stated fails on the code.  The template
`"x{page7"` contains a digit run (and the `"{page"` marker), start 1 and
count 2 are valid, yet both generated URLs are the unchanged template whose
embedded page number is constantly 7 — neither equal to 1, 2 nor strictly
increasing.  Moreover, for the digit template `"page5"` with start −1 and
count 1 the embedded page number of the generated URL is 1, not −1. -/
theorem generate_urls_claim_false :
    (generate_urls ['x','{','p','a','g','e','7'] 1 none (some 2)
        = .ok [['x','{','p','a','g','e','7'], ['x','{','p','a','g','e','7']] ∧
      lastNumber ['x','{','p','a','g','e','7'] = some 7) ∧
    (generate_urls ['p','a','g','e','5'] (-1) none (some 1)
        = .ok [['p','a','g','e','-','1']] ∧
      lastNumber ['p','a','g','e','-','1'] = some 1) := by
  exact ⟨⟨by decide, by decide⟩, ⟨by decide, by decide⟩⟩

/-- C6: for templates whose page number is the last decimal digit run, every
generated URL carries the page number zero-padded to exactly the width of the
template's original digit run, and the image filename derived by the
orchestrator for that URL embeds the same zero-padded page number — the file
name depends only on the page index, the configured prefix and format, and
the template's digit width. -/
theorem filename_padding (template pre d post imgPrefix imgFormat : Str) (start cnt : Int)
    (hmark : hasPageMarker template = false)
    (hsplit : splitLastRun template = some (pre, d, post))
    (hstart : 0 ≤ start) :
    ∃ urls, generate_urls template start none (some cnt) = .ok urls ∧
      ∀ k (hk : k < urls.length) (printed : Nat),
        urls.get ⟨k, hk⟩ = pre ++ pyZfill d.length (natToStr (start.toNat + k)) ++ post ∧
        img_name imgPrefix imgFormat (urls.get ⟨k, hk⟩) printed
          = imgPrefix ++ pyZfill d.length (natToStr (start.toNat + k))
              ++ '.' :: extOf imgFormat := by
  have hgen := @generate_urls_digit template pre d post start
    none (some cnt) hmark hsplit (Or.inr (by simp))
  obtain ⟨-, -, -, hpost, hpre⟩ := splitLastRun_spec hsplit
  refine ⟨_, hgen, ?_⟩
  intro k hk printed
  have hk2 : k < (pyRange start ((none : Option Int).getD
      (start + (some cnt : Option Int).getD 0 - 1))).length := by
    simpa using hk
  have hget : (((pyRange start ((none : Option Int).getD
        (start + (some cnt : Option Int).getD 0 - 1))).map
          (fun i => pre ++ pyZfill d.length (pyStr i) ++ post)).get ⟨k, hk⟩)
      = pre ++ pyZfill d.length (pyStr (start + (k : Int))) ++ post := by
    rw [List.get_eq_getElem, List.getElem_map, pyRange_getElem _ _ k hk2]
  have hcast : (start + (k : Int)).toNat = start.toNat + k := by omega
  have hval : pyStr (start + (k : Int)) = natToStr (start.toNat + k) := by
    rw [pyStr_ofNat (by omega), hcast]
  constructor
  · rw [hget, hval]
  · rw [hget, hval]
    unfold img_name page_str_of
    rw [splitLastRun_insert d.length (start.toNat + k) hpost hpre]

/-- C6 witness: template digit run `"0001"` (width 4) and page 12 render the
URL and file name with `"0012"`. -/
theorem filename_padding_witness :
    hasPageMarker ['p','a','g','e','0','0','0','1','.','x','h','t','m','l'] = false ∧
    splitLastRun ['p','a','g','e','0','0','0','1','.','x','h','t','m','l']
      = some (['p','a','g','e'], ['0','0','0','1'], ['.','x','h','t','m','l']) ∧
    (0 : Int) ≤ 12 ∧
    (∃ urls, generate_urls ['p','a','g','e','0','0','0','1','.','x','h','t','m','l']
        12 none (some 1) = .ok urls ∧
      ∀ k (hk : k < urls.length) (printed : Nat),
        urls.get ⟨k, hk⟩ = ['p','a','g','e'] ++ pyZfill 4 (natToStr ((12 : Int).toNat + k))
            ++ ['.','x','h','t','m','l'] ∧
        img_name ['p','g'] ['p','n','g'] (urls.get ⟨k, hk⟩) printed
          = ['p','g'] ++ pyZfill 4 (natToStr ((12 : Int).toNat + k))
              ++ '.' :: extOf ['p','n','g']) := by
  refine ⟨by decide, by decide, by decide, ?_⟩
  have h := filename_padding ['p','a','g','e','0','0','0','1','.','x','h','t','m','l']
    ['p','a','g','e'] ['0','0','0','1'] ['.','x','h','t','m','l'] ['p','g'] ['p','n','g']
    12 1 (by decide) (by decide) (by decide)
  simpa using h

/-- C3: for every successfully opened input image, the transform applies, in
this order, brightness scaling by 7/10 < 1, contrast scaling by 8/5 > 1 and
grayscale conversion (ending in single-channel mode `L`), then saves a PNG at
compression level 6; images not in 8-bit RGB or grayscale mode are first
converted to RGB. -/
theorem white_black_effect_ops (env : TransformEnv)
    (hpil : env.pillowAvailable = true) (hopen : env.openOk = true) :
    (apply_white_black_effect env).1 = true ∧
    (apply_white_black_effect env).2 =
      (if env.mode ≠ rgbMode ∧ env.mode ≠ lMode then [PilOp.convertRGB] else []) ++
        [PilOp.enhanceBrightness (7 / 10), PilOp.enhanceContrast (8 / 5),
          PilOp.grayscale, PilOp.savePNG 6] ∧
    (7 / 10 : ℚ) < 1 ∧ (1 : ℚ) < 8 / 5 ∧
    modeAfterOps env.mode (apply_white_black_effect env).2 = lMode := by
  have heval : apply_white_black_effect env =
      (true,
        (if env.mode ≠ rgbMode ∧ env.mode ≠ lMode then [PilOp.convertRGB] else []) ++
          [PilOp.enhanceBrightness (7 / 10), PilOp.enhanceContrast (8 / 5),
            PilOp.grayscale, PilOp.savePNG 6]) := by
    unfold apply_white_black_effect
    rw [hpil, hopen]
    rfl
  refine ⟨by rw [heval], by rw [heval], by norm_num, by norm_num, ?_⟩
  rw [heval]
  by_cases hmode : env.mode ≠ rgbMode ∧ env.mode ≠ lMode
  · rw [if_pos hmode]
    rfl
  · rw [if_neg hmode]
    rfl

/-- C3 witness: the transform operations on an RGBA input. -/
theorem white_black_effect_ops_witness :
    ({ pillowAvailable := true, openOk := true,
       mode := ['R','G','B','A'] } : TransformEnv).pillowAvailable = true ∧
    (apply_white_black_effect
        { pillowAvailable := true, openOk := true, mode := ['R','G','B','A'] }).1 = true ∧
    (apply_white_black_effect
        { pillowAvailable := true, openOk := true, mode := ['R','G','B','A'] }).2 =
      [PilOp.convertRGB, PilOp.enhanceBrightness (7 / 10), PilOp.enhanceContrast (8 / 5),
        PilOp.grayscale, PilOp.savePNG 6] ∧
    modeAfterOps ['R','G','B','A']
      (apply_white_black_effect
        { pillowAvailable := true, openOk := true, mode := ['R','G','B','A'] }).2 = lMode := by
  have h := white_black_effect_ops
    { pillowAvailable := true, openOk := true, mode := ['R','G','B','A'] } rfl rfl
  obtain ⟨h1, h2, -, -, h5⟩ := h
  refine ⟨rfl, h1, ?_, h5⟩
  rw [h2]
  rw [if_pos (by refine ⟨?_, ?_⟩ <;> decide)]
  rfl

/-! ### Support lemmas for PDF assembly -/

theorem strLe_total : ∀ (a b : Str), strLe a b = true ∨ strLe b a = true
  | [], _ => Or.inl rfl
  | _ :: _, [] => Or.inr rfl
  | a :: as, b :: bs => by
    simp only [strLe]
    rcases Nat.lt_trichotomy a.toNat b.toNat with h | h | h
    · left
      simp [h]
    · have h1 : ¬ a.toNat < b.toNat := by omega
      have h2 : ¬ b.toNat < a.toNat := by omega
      simp only [if_neg h1, if_neg h2]
      exact strLe_total as bs
    · right
      simp [h]

theorem strLe_trans : ∀ (a b c : Str),
    strLe a b = true → strLe b c = true → strLe a c = true
  | [], _, _, _, _ => rfl
  | _ :: _, [], _, h, _ => by simp [strLe] at h
  | _ :: _, _ :: _, [], _, h => by simp [strLe] at h
  | a :: as, b :: bs, c :: cs, h1, h2 => by
    simp only [strLe] at h1 h2 ⊢
    by_cases hab : a.toNat < b.toNat <;> by_cases hbc : b.toNat < c.toNat
    · rw [if_pos (by omega)]
    · by_cases hcb : c.toNat < b.toNat
      · rw [if_neg hbc, if_pos hcb] at h2
        exact absurd h2 (by simp)
      · rw [if_pos (by omega)]
    · by_cases hba : b.toNat < a.toNat
      · rw [if_neg hab, if_pos hba] at h1
        exact absurd h1 (by simp)
      · rw [if_pos (by omega)]
    · by_cases hba : b.toNat < a.toNat
      · rw [if_neg hab, if_pos hba] at h1
        exact absurd h1 (by simp)
      · by_cases hcb : c.toNat < b.toNat
        · rw [if_neg hbc, if_pos hcb] at h2
          exact absurd h2 (by simp)
        · rw [if_neg hab, if_neg hba] at h1
          rw [if_neg hbc, if_neg hcb] at h2
          rw [if_neg (by omega), if_neg (by omega)]
          exact strLe_trans as bs cs h1 h2

instance : IsTotal Str strLeRel := ⟨fun a b => strLe_total a b⟩

instance : IsTrans Str strLeRel := ⟨fun a b c => strLe_trans a b c⟩

theorem pdfEligible_perm (dirFiles : List Str) :
    (pdfEligible dirFiles).Perm (dirFiles.filter (fun f => decide (pngExt <:+ f))) :=
  List.perm_insertionSort _ _

theorem convert_images_to_pdf_empty (dirFiles : List Str) (pdfDir outputName : Str)
    (hempty : dirFiles.filter (fun f => decide (pngExt <:+ f)) = []) (mergeAll : Bool) :
    convert_images_to_pdf true dirFiles pdfDir mergeAll outputName = (false, []) := by
  have hnil : pdfEligible dirFiles = [] := by
    have hperm := pdfEligible_perm dirFiles
    rw [hempty] at hperm
    exact hperm.eq_nil
  unfold convert_images_to_pdf
  rw [hnil]
  rfl

/-- C7: PDF assembly on a directory with no eligible (`*.png`) image fails and
writes nothing; with eligible images, merge mode writes the single PDF
`pdfDir/outputName` containing the eligible images in lexicographically sorted
name order, and per-page mode writes one PDF per image named after the image's
stem. -/
theorem convert_images_to_pdf_spec (dirFiles : List Str) (pdfDir outputName : Str) :
    ((dirFiles.filter (fun f => decide (pngExt <:+ f))) = [] →
      ∀ mergeAll, convert_images_to_pdf true dirFiles pdfDir mergeAll outputName
        = (false, [])) ∧
    ((dirFiles.filter (fun f => decide (pngExt <:+ f))) ≠ [] →
      convert_images_to_pdf true dirFiles pdfDir true outputName
          = (true, [(pdfDir ++ '/' :: outputName, pdfEligible dirFiles)]) ∧
        List.Sorted strLeRel (pdfEligible dirFiles) ∧
        (pdfEligible dirFiles).Perm (dirFiles.filter (fun f => decide (pngExt <:+ f))) ∧
        convert_images_to_pdf true dirFiles pdfDir false outputName
          = (true, (pdfEligible dirFiles).map
              (fun img => (pdfDir ++ '/' :: (stemOf img ++ pdfExt), [img])))) := by
  have hperm := pdfEligible_perm dirFiles
  constructor
  · exact fun hempty mergeAll => convert_images_to_pdf_empty dirFiles pdfDir outputName
      hempty mergeAll
  · intro hne
    have hnenil : pdfEligible dirFiles ≠ [] := by
      intro hc
      rw [hc] at hperm
      exact hne hperm.symm.eq_nil
    have hie : (pdfEligible dirFiles).isEmpty = false := by
      cases hge : pdfEligible dirFiles with
      | nil => exact absurd hge hnenil
      | cons x xs => rfl
    refine ⟨?_, List.sorted_insertionSort _ _, hperm, ?_⟩
    · simp [convert_images_to_pdf, hie]
    · simp [convert_images_to_pdf, hie]

/-- C7 witness: a directory with two PNG files and one other file. -/
theorem convert_images_to_pdf_spec_witness :
    ([['b','.','p','n','g'], ['a','.','p','n','g'], ['c','.','t','x','t']].filter
        (fun f => decide (pngExt <:+ f))) ≠ [] ∧
    (convert_images_to_pdf true
        [['b','.','p','n','g'], ['a','.','p','n','g'], ['c','.','t','x','t']]
        ['o'] true ['m','.','p','d','f']
        = (true, [(['o'] ++ '/' :: ['m','.','p','d','f'],
            pdfEligible [['b','.','p','n','g'], ['a','.','p','n','g'], ['c','.','t','x','t']])]) ∧
      List.Sorted strLeRel
        (pdfEligible [['b','.','p','n','g'], ['a','.','p','n','g'], ['c','.','t','x','t']]) ∧
      (pdfEligible [['b','.','p','n','g'], ['a','.','p','n','g'], ['c','.','t','x','t']]).Perm
        ([['b','.','p','n','g'], ['a','.','p','n','g'], ['c','.','t','x','t']].filter
          (fun f => decide (pngExt <:+ f))) ∧
      convert_images_to_pdf true
          [['b','.','p','n','g'], ['a','.','p','n','g'], ['c','.','t','x','t']]
          ['o'] false ['m','.','p','d','f']
        = (true,
            (pdfEligible [['b','.','p','n','g'], ['a','.','p','n','g'], ['c','.','t','x','t']]).map
              (fun img => (['o'] ++ '/' :: (stemOf img ++ pdfExt), [img])))) :=
  ⟨by decide,
    (convert_images_to_pdf_spec
        [['b','.','p','n','g'], ['a','.','p','n','g'], ['c','.','t','x','t']]
        ['o'] ['m','.','p','d','f']).2 (by decide)⟩

/-- C10: the set of images eligible for PDF assembly is exactly the directory
entries ending in `".png"` — the assembler takes no format parameter; a
capture file of a jpeg-format run ends in `".jpg"`, which matches neither the
transform stage's `"*.jpeg"` glob nor the assembler's `"*.png"` glob, so for a
directory of jpeg captures the transform selects nothing and every PDF
assembly fails with no output. -/
theorem pdf_glob_png_only :
    (∀ (dirFiles : List Str) (f : Str),
      f ∈ pdfEligible dirFiles ↔ f ∈ dirFiles ∧ pngExt <:+ f) ∧
    (∀ s : Str, ¬ pngExt <:+ (s ++ ['.', 'j', 'p', 'g']) ∧
      ¬ ('.' :: jpegStr) <:+ (s ++ ['.', 'j', 'p', 'g'])) ∧
    (∀ dirFiles : List Str, (∀ f ∈ dirFiles, ∃ s, f = s ++ ['.', 'j', 'p', 'g']) →
      bwGlobSelection dirFiles jpegStr = [] ∧
      ∀ (pdfDir : Str) (mergeAll : Bool) (outputName : Str),
        convert_images_to_pdf true dirFiles pdfDir mergeAll outputName = (false, [])) := by
  have hjpg : ∀ s : Str, ¬ pngExt <:+ (s ++ ['.', 'j', 'p', 'g']) ∧
      ¬ ('.' :: jpegStr) <:+ (s ++ ['.', 'j', 'p', 'g']) := by
    intro s
    have hsuf : ['.', 'j', 'p', 'g'] <:+ (s ++ ['.', 'j', 'p', 'g']) :=
      List.suffix_append s ['.', 'j', 'p', 'g']
    constructor
    · intro h
      rcases List.suffix_or_suffix_of_suffix h hsuf with hc | hc
      · exact absurd hc (by decide)
      · exact absurd hc (by decide)
    · intro h
      rcases List.suffix_or_suffix_of_suffix h hsuf with hc | hc
      · exact absurd hc (by decide)
      · exact absurd hc (by decide)
  refine ⟨?_, hjpg, ?_⟩
  · intro dirFiles f
    rw [(pdfEligible_perm dirFiles).mem_iff, List.mem_filter]
    simp
  · intro dirFiles hall
    have hbw : dirFiles.filter (fun f => decide (('.' :: jpegStr) <:+ f)) = [] := by
      rw [List.filter_eq_nil_iff]
      intro f hf
      obtain ⟨s, rfl⟩ := hall f hf
      simpa using (hjpg s).2
    have hpng : dirFiles.filter (fun f => decide (pngExt <:+ f)) = [] := by
      rw [List.filter_eq_nil_iff]
      intro f hf
      obtain ⟨s, rfl⟩ := hall f hf
      simpa using (hjpg s).1
    constructor
    · unfold bwGlobSelection
      rw [hbw]
      rfl
    · intro pdfDir mergeAll outputName
      exact convert_images_to_pdf_empty dirFiles pdfDir outputName hpng mergeAll

/-- C10 witness: a directory holding one jpeg capture. -/
theorem pdf_glob_png_only_witness :
    (∀ f ∈ [['a', '.', 'j', 'p', 'g']], ∃ s : Str, f = s ++ ['.', 'j', 'p', 'g']) ∧
    (bwGlobSelection [['a', '.', 'j', 'p', 'g']] jpegStr = [] ∧
      ∀ (pdfDir : Str) (mergeAll : Bool) (outputName : Str),
        convert_images_to_pdf true [['a', '.', 'j', 'p', 'g']] pdfDir mergeAll outputName
          = (false, [])) := by
  have hone : ∀ f ∈ [['a', '.', 'j', 'p', 'g']], ∃ s : Str, f = s ++ ['.', 'j', 'p', 'g'] := by
    intro f hf
    simp only [List.mem_singleton] at hf
    exact ⟨['a'], hf⟩
  exact ⟨hone, pdf_glob_png_only.2.2 [['a', '.', 'j', 'p', 'g']] hone⟩

/-! ### Support lemmas for the capture unit -/

theorem finishShot_success {env : CaptureEnv} {o : CaptureOpts} {clip : Option IntClip}
    (h : (finishShot env o clip).1 = true) : env.screenshot ≠ none := by
  unfold finishShot at h
  cases hs : env.screenshot with
  | none => rw [hs] at h; simp at h
  | some u => simp [hs]

theorem afterBg_success {env : CaptureEnv} {o : CaptureOpts} {bgr : Option BgInfo}
    (h : (afterBg env o bgr).1 = true) : env.screenshot ≠ none := by
  unfold afterBg at h
  split at h
  · exact finishShot_success h
  · split at h
    · simp at h
    · exact finishShot_success h

theorem afterGoto_success {env : CaptureEnv} {o : CaptureOpts}
    (h : (afterGoto env o).1 = true) : env.evalBgInfo ≠ none ∧ env.screenshot ≠ none := by
  unfold afterGoto at h
  split at h
  next a bgr b heq1 heq2 heq3 =>
    exact ⟨by rw [heq2]; simp, afterBg_success h⟩
  next => simp at h

theorem captureWithBody_success {env : CaptureEnv} {o : CaptureOpts}
    (h : (captureWithBody env o).1 = true) :
    env.goto ≠ none ∧ env.evalBgInfo ≠ none ∧ env.screenshot ≠ none := by
  unfold captureWithBody at h
  split at h
  · simp at h
  · split at h
    next heq1 heq2 heq3 =>
      rcases hag : afterGoto env o with ⟨ok, evs, shot⟩
      rw [hag] at h
      simp only at h
      have hgo := @afterGoto_success env o (by rw [hag]; exact h)
      exact ⟨by rw [heq3]; simp, hgo.1, hgo.2⟩
    next => simp at h

theorem capture_success_steps {env : CaptureEnv} {o : CaptureOpts}
    (h : (generate_image_playwright env o).success = true) :
    env.goto ≠ none ∧ env.evalBgInfo ≠ none ∧ env.screenshot ≠ none := by
  unfold generate_image_playwright at h
  cases hpi : env.playwrightImport with
  | none => rw [hpi] at h; simp at h
  | some u =>
    rw [hpi] at h
    cases hst : env.startPw with
    | none => rw [hst] at h; simp at h
    | some v =>
      rw [hst] at h
      rcases hcb : captureWithBody env o with ⟨ok, evs, shot⟩
      rw [hcb] at h
      simp only at h
      exact captureWithBody_success (by rw [hcb]; exact h)

theorem finishShot_events (env : CaptureEnv) (o : CaptureOpts) (clip : Option IntClip) :
    (finishShot env o clip).2.1 = [] ∨ (finishShot env o clip).2.1 = [Ev.browserClose] := by
  unfold finishShot
  cases env.screenshot <;> cases env.closeBrowser <;> simp

theorem afterBg_events (env : CaptureEnv) (o : CaptureOpts) (bgr : Option BgInfo) :
    (afterBg env o bgr).2.1 = [] ∨ (afterBg env o bgr).2.1 = [Ev.browserClose] := by
  unfold afterBg
  split
  · exact finishShot_events env o none
  · split
    · simp
    · exact finishShot_events env o (clipOf env)

theorem afterGoto_events (env : CaptureEnv) (o : CaptureOpts) :
    (afterGoto env o).2.1 = [] ∨ (afterGoto env o).2.1 = [Ev.browserClose] := by
  unfold afterGoto
  split
  · exact afterBg_events env o _
  · simp

theorem captureWithBody_events (env : CaptureEnv) (o : CaptureOpts) :
    (captureWithBody env o).2.1 ∈
      ([[], [Ev.browserLaunch], [Ev.browserLaunch, Ev.browserClose]] : List (List Ev)) := by
  unfold captureWithBody
  split
  · simp
  · split
    · rcases hag : afterGoto env o with ⟨ok, evs, shot⟩
      have hev := afterGoto_events env o
      rw [hag] at hev
      simp only at hev
      rcases hev with h | h <;> subst h <;> simp
    · simp

theorem captureEvents_cases (env : CaptureEnv) (o : CaptureOpts) :
    (generate_image_playwright env o).events ∈
      ([[], [Ev.pwEnter, Ev.pwExit], [Ev.pwEnter, Ev.browserLaunch, Ev.pwExit],
        [Ev.pwEnter, Ev.browserLaunch, Ev.browserClose, Ev.pwExit]] : List (List Ev)) := by
  unfold generate_image_playwright
  cases env.playwrightImport with
  | none => simp
  | some u =>
    cases env.startPw with
    | none => simp
    | some v =>
      rcases hcb : captureWithBody env o with ⟨ok, evs, shot⟩
      have hev := captureWithBody_events env o
      rw [hcb] at hev
      simp only at hev
      simp only [List.mem_cons, List.mem_singleton, List.not_mem_nil, or_false] at hev
      rcases hev with h | h | h <;> subst h <;> simp

/-! ### Support lemmas for the orchestrator loop -/

theorem loopStep_cases (cfg : RunCfg) (env : RunEnv) (u : Str) (printed : Nat)
    (written calls : List Str) :
    loopStep cfg env u printed written calls = (PageAction.printedOnly, written, calls) ∨
    loopStep cfg env u printed written calls = (PageAction.skipped, written, calls) ∨
    loopStep cfg env u printed written calls
      = (PageAction.wroteImg, pagePathOf cfg u printed :: written, u :: calls) ∨
    loopStep cfg env u printed written calls = (PageAction.failedImg, written, u :: calls) := by
  unfold loopStep
  split_ifs <;> simp

theorem main_page_loop_shape (cfg : RunCfg) (env : RunEnv) :
    ∀ (urls : List Str) (printed : Nat) (written calls : List Str),
    (cfg.checkHead = false ∨ env.requestsAvailable = true) →
    (main_page_loop cfg env urls printed written calls).pages.map (fun r => r.url)
        = urls.take (pagesTaken cfg.limit printed urls.length) ∧
    (main_page_loop cfg env urls printed written calls).exitCode = none ∧
    (main_page_loop cfg env urls printed written calls).calls
        = (((main_page_loop cfg env urls printed written calls).pages.filter
            (fun r => r.action = PageAction.wroteImg ∨ r.action = PageAction.failedImg)).map
            (fun r => r.url)).reverse ++ calls ∧
    (main_page_loop cfg env urls printed written calls).written
        = (((main_page_loop cfg env urls printed written calls).pages.filter
            (fun r => r.action = PageAction.wroteImg)).map (fun r => r.imgPath)).reverse
          ++ written
  | [], printed, written, calls, hh => by
    simp [main_page_loop, pagesTaken]
  | u :: rest, printed, written, calls, hh => by
    have hhead : (cfg.checkHead && !env.requestsAvailable) = false := by
      rcases hh with h | h <;> simp [h]
    by_cases hlim : (limitTruthy cfg.limit && decide ((printed + 1 : Int) ≥ cfg.limit.getD 0))
        = true
    · rcases loopStep_cases cfg env u printed written calls with hs | hs | hs | hs <;>
        simp [main_page_loop, hhead, hlim, hs, pagesTaken]
    · have IH := main_page_loop_shape cfg env rest (printed + 1)
      have htake : pagesTaken cfg.limit printed (u :: rest).length
          = pagesTaken cfg.limit (printed + 1) rest.length + 1 := by
        simp only [List.length_cons, pagesTaken, hlim, Bool.false_eq_true, if_false]
        omega
      rcases loopStep_cases cfg env u printed written calls with hs | hs | hs | hs
      · obtain ⟨ih1, ih2, ih3, ih4⟩ := IH written calls hh
        have hstep : main_page_loop cfg env (u :: rest) printed written calls
            = ⟨⟨u, pagePathOf cfg u printed, pageExists cfg env u printed written,
                  PageAction.printedOnly⟩
                :: (main_page_loop cfg env rest (printed + 1) written calls).pages,
              (main_page_loop cfg env rest (printed + 1) written calls).written,
              (main_page_loop cfg env rest (printed + 1) written calls).calls,
              (main_page_loop cfg env rest (printed + 1) written calls).exitCode⟩ := by
          simp [main_page_loop, hhead, hlim, hs]
        rw [hstep, htake]
        refine ⟨?_, ih2, ?_, ?_⟩
        · rw [List.take_succ_cons]
          simp [ih1]
        · rw [List.filter_cons_of_neg (by simp)]
          exact ih3
        · rw [List.filter_cons_of_neg (by simp)]
          exact ih4
      · obtain ⟨ih1, ih2, ih3, ih4⟩ := IH written calls hh
        have hstep : main_page_loop cfg env (u :: rest) printed written calls
            = ⟨⟨u, pagePathOf cfg u printed, pageExists cfg env u printed written,
                  PageAction.skipped⟩
                :: (main_page_loop cfg env rest (printed + 1) written calls).pages,
              (main_page_loop cfg env rest (printed + 1) written calls).written,
              (main_page_loop cfg env rest (printed + 1) written calls).calls,
              (main_page_loop cfg env rest (printed + 1) written calls).exitCode⟩ := by
          simp [main_page_loop, hhead, hlim, hs]
        rw [hstep, htake]
        refine ⟨?_, ih2, ?_, ?_⟩
        · rw [List.take_succ_cons]
          simp [ih1]
        · rw [List.filter_cons_of_neg (by simp)]
          exact ih3
        · rw [List.filter_cons_of_neg (by simp)]
          exact ih4
      · obtain ⟨ih1, ih2, ih3, ih4⟩ :=
          IH (pagePathOf cfg u printed :: written) (u :: calls) hh
        have hstep : main_page_loop cfg env (u :: rest) printed written calls
            = ⟨⟨u, pagePathOf cfg u printed, pageExists cfg env u printed written,
                  PageAction.wroteImg⟩
                :: (main_page_loop cfg env rest (printed + 1)
                    (pagePathOf cfg u printed :: written) (u :: calls)).pages,
              (main_page_loop cfg env rest (printed + 1)
                  (pagePathOf cfg u printed :: written) (u :: calls)).written,
              (main_page_loop cfg env rest (printed + 1)
                  (pagePathOf cfg u printed :: written) (u :: calls)).calls,
              (main_page_loop cfg env rest (printed + 1)
                  (pagePathOf cfg u printed :: written) (u :: calls)).exitCode⟩ := by
          simp [main_page_loop, hhead, hlim, hs]
        rw [hstep, htake]
        refine ⟨?_, ih2, ?_, ?_⟩
        · rw [List.take_succ_cons]
          simp [ih1]
        · rw [List.filter_cons_of_pos (by simp)]
          rw [ih3]
          simp
        · rw [List.filter_cons_of_pos (by simp)]
          rw [ih4]
          simp
      · obtain ⟨ih1, ih2, ih3, ih4⟩ := IH written (u :: calls) hh
        have hstep : main_page_loop cfg env (u :: rest) printed written calls
            = ⟨⟨u, pagePathOf cfg u printed, pageExists cfg env u printed written,
                  PageAction.failedImg⟩
                :: (main_page_loop cfg env rest (printed + 1) written (u :: calls)).pages,
              (main_page_loop cfg env rest (printed + 1) written (u :: calls)).written,
              (main_page_loop cfg env rest (printed + 1) written (u :: calls)).calls,
              (main_page_loop cfg env rest (printed + 1) written (u :: calls)).exitCode⟩ := by
          simp [main_page_loop, hhead, hlim, hs]
        rw [hstep, htake]
        refine ⟨?_, ih2, ?_, ?_⟩
        · rw [List.take_succ_cons]
          simp [ih1]
        · rw [List.filter_cons_of_pos (by simp)]
          rw [ih3]
          simp
        · rw [List.filter_cons_of_neg (by simp)]
          exact ih4

theorem pagesTaken_none : ∀ (printed n : Nat), pagesTaken none printed n = n
  | _, 0 => rfl
  | p, n + 1 => by
    simp only [pagesTaken, limitTruthy, Bool.false_and, Bool.false_eq_true, if_false]
    rw [pagesTaken_none (p + 1) n]
    omega

theorem liveAfter_concrete_bound :
    ∀ l ∈ ([[], [Ev.pwEnter, Ev.pwExit], [Ev.pwEnter, Ev.browserLaunch, Ev.pwExit],
        [Ev.pwEnter, Ev.browserLaunch, Ev.browserClose, Ev.pwExit]] : List (List Ev)),
      liveAfter l = 0 ∧ ∀ n, liveAfter (l.take n) ≤ 1 := by
  intro l hl
  simp only [List.mem_cons, List.not_mem_nil, or_false] at hl
  rcases hl with rfl | rfl | rfl | rfl <;>
    refine ⟨by decide, fun n => ?_⟩ <;>
    rcases Nat.lt_or_ge n 5 with h5 | h5 <;>
    first
      | (interval_cases n <;> decide)
      | (rw [List.take_of_length_le (by simp only [List.length_cons, List.length_nil]; omega)]
         decide)

theorem liveAfter_flatten_take :
    ∀ (ls : List (List Ev)),
    (∀ l ∈ ls, liveAfter l = 0 ∧ ∀ n, liveAfter (l.take n) ≤ 1) →
    ∀ n, liveAfter ((ls.flatten).take n) ≤ 1
  | [], _ => by intro n; simp [liveAfter]
  | a :: rest, h => by
    intro n
    have ha := h a (by simp)
    rw [List.flatten_cons, List.take_append_eq_append_take]
    by_cases hn : n ≤ a.length
    · have h0 : n - a.length = 0 := by omega
      rw [h0, List.take_zero, List.append_nil]
      exact ha.2 n
    · rw [List.take_of_length_le (by omega)]
      unfold liveAfter
      rw [List.foldl_append]
      have h0 : a.foldl liveStep 0 = 0 := ha.1
      rw [h0]
      have hrec := liveAfter_flatten_take rest
        (fun l hl => h l (List.mem_cons_of_mem _ hl)) (n - a.length)
      unfold liveAfter at hrec
      exact hrec

/-- C9: every capture invocation releases every browser resource it acquired
before returning — the playwright scope is exited on success and on every
exception path, releasing the browser it launched — so after each capture no
browser is live, within a capture at most one browser is ever live, and over
any sequential run of captures no two browser contexts are ever live
simultaneously. -/
theorem capture_releases_resources :
    (∀ (env : CaptureEnv) (o : CaptureOpts),
      liveAfter (generate_image_playwright env o).events = 0 ∧
      ∀ n, liveAfter ((generate_image_playwright env o).events.take n) ≤ 1) ∧
    (∀ (runs : List (CaptureEnv × CaptureOpts)) (n : Nat),
      liveAfter (((runs.map
        (fun p => (generate_image_playwright p.1 p.2).events)).flatten).take n) ≤ 1) := by
  have hcap : ∀ (env : CaptureEnv) (o : CaptureOpts),
      liveAfter (generate_image_playwright env o).events = 0 ∧
      ∀ n, liveAfter ((generate_image_playwright env o).events.take n) ≤ 1 :=
    fun env o => liveAfter_concrete_bound _ (captureEvents_cases env o)
  refine ⟨hcap, ?_⟩
  intro runs n
  refine liveAfter_flatten_take _ ?_ n
  intro l hl
  obtain ⟨p, hp, rfl⟩ := List.mem_map.mp hl
  exact hcap p.1 p.2

/-- C2: an exception raised by the page load, the background-probing script
evaluation, or the screenshot is caught and surfaced as a failed capture
(`success = false`), never propagated; and the orchestrator's per-page loop
processes every URL whatever the capture outcomes are — with no limit
configured it handles all pages and never aborts early. -/
theorem capture_failure_contained :
    (∀ (env : CaptureEnv) (o : CaptureOpts),
      env.goto = none ∨ env.evalBgInfo = none ∨ env.screenshot = none →
      (generate_image_playwright env o).success = false) ∧
    (∀ (cfg : RunCfg) (env : RunEnv) (urls : List Str),
      (cfg.checkHead = false ∨ env.requestsAvailable = true) → cfg.limit = none →
      (main_page_loop cfg env urls 0 [] []).pages.map (fun r => r.url) = urls ∧
      (main_page_loop cfg env urls 0 [] []).exitCode = none) := by
  constructor
  · intro env o h
    cases hsucc : (generate_image_playwright env o).success with
    | false => rfl
    | true =>
      obtain ⟨h1, h2, h3⟩ := capture_success_steps hsucc
      rcases h with h | h | h
      · exact absurd h h1
      · exact absurd h h2
      · exact absurd h h3
  · intro cfg env urls hh hlim
    obtain ⟨h1, h2, -, -⟩ := main_page_loop_shape cfg env urls 0 [] [] hh
    refine ⟨?_, h2⟩
    rw [h1, hlim, pagesTaken_none, List.take_length]

/-- A capture environment whose page load (`page.goto`) raises; every other
step would succeed. -/
def captureEnvGotoFail : CaptureEnv :=
  { playwrightImport := some (), startPw := some (), launch := some ()
    newPage := some (), setViewport := some (), goto := none
    detectContainer := some none, evalBgInfo := some none
    addStyle1 := some (), addStyle2 := some ()
    boundingBox := some none, screenshot := some (), closeBrowser := some () }

/-- Default capture options of a png run. -/
def captureOptsPng : CaptureOpts :=
  { url := ['u'], outPath := ['o', '.', 'p', 'n', 'g'], imgFormat := ['p', 'n', 'g']
    timeout := 30000, pageSelector := none, clipPadding := 0
    fullPage := false, injectCss := true }

/-- A run configuration with no limit, no head checks, not print-only. -/
def runCfgW : RunCfg :=
  { checkHead := false, printOnly := false, skipExisting := true
    imgPrefix := ['p'], imgFormat := ['p', 'n', 'g'], outDir := ['o'], limit := none }

/-- A run environment where every file already exists and capture succeeds. -/
def runEnvW : RunEnv :=
  { requestsAvailable := true, fs0 := fun _ => true, capture := fun _ _ => true }

/-- C2 witness: a capture whose `goto` raises yields a failure result, and the
loop with no limit processes both pages of a two-page run. -/
theorem capture_failure_contained_witness :
    (captureEnvGotoFail.goto = none ∨ captureEnvGotoFail.evalBgInfo = none ∨
      captureEnvGotoFail.screenshot = none) ∧
    (generate_image_playwright captureEnvGotoFail captureOptsPng).success = false ∧
    (runCfgW.checkHead = false ∨ runEnvW.requestsAvailable = true) ∧ runCfgW.limit = none ∧
    ((main_page_loop runCfgW runEnvW [['u', '1'], ['u', '2']] 0 [] []).pages.map
        (fun r => r.url) = [['u', '1'], ['u', '2']] ∧
      (main_page_loop runCfgW runEnvW [['u', '1'], ['u', '2']] 0 [] []).exitCode = none) :=
  ⟨Or.inl rfl,
    capture_failure_contained.1 captureEnvGotoFail captureOptsPng (Or.inl rfl),
    Or.inl rfl, rfl,
    capture_failure_contained.2 runCfgW runEnvW [['u', '1'], ['u', '2']] (Or.inl rfl) rfl⟩

/-- A capture environment in which the content element's bounding box cannot
be resolved (`bounding_box()` returns no box) although a background image is
present; every browser step succeeds. -/
def captureEnvBoxless : CaptureEnv :=
  { playwrightImport := some (), startPw := some (), launch := some ()
    newPage := some (), setViewport := some (), goto := some ()
    detectContainer := some none
    evalBgInfo := some (some
      { hasEl := true
        backgroundImage := some ['u', 'r', 'l', '(', 'b', 'g', '.', 'p', 'n', 'g', ')']
        width := 100, height := 100, x := 0, y := 0 })
    addStyle1 := some (), addStyle2 := some ()
    boundingBox := some none, screenshot := some (), closeBrowser := some () }

/-- C4 counterexample: with the full-page flag off and the bounding box of the
target unavailable (`bounding_box()` returns `None`), the capture does NOT
fail: it returns success and writes an unclipped (viewport) screenshot,
contradicting the claim that only full-page mode succeeds without a
resolvable region. -/
theorem capture_no_region_still_succeeds :
    captureOptsPng.fullPage = false ∧
    captureEnvBoxless.boundingBox = some none ∧
    (generate_image_playwright captureEnvBoxless captureOptsPng).success = true ∧
    (generate_image_playwright captureEnvBoxless captureOptsPng).shot
      = some { path := ['o', '.', 'p', 'n', 'g'], shotType := ['p', 'n', 'g']
               fullPage := false, quality := none, clip := none } := by
  refine ⟨rfl, rfl, ?_, ?_⟩ <;> decide

/-- C4 (amended): when the full-page flag is off and the bounding box of the
target selector cannot be resolved — `bounding_box()` returns no box or
raises — the capture does not fail: provided the remaining browser steps
succeed, it succeeds and produces an unclipped (viewport-sized) screenshot;
no `CaptureError` arises from the missing region. -/
theorem capture_no_region_unclipped (env : CaptureEnv) (o : CaptureOpts)
    (hfp : o.fullPage = false)
    (hbox : env.boundingBox = some none ∨ env.boundingBox = none)
    (h1 : env.playwrightImport = some ()) (h2 : env.startPw = some ())
    (h3 : env.launch = some ()) (h4 : env.newPage = some ())
    (h5 : env.setViewport = some ()) (h6 : env.goto = some ())
    (hsel : selOf env o ≠ none)
    (hbg : env.evalBgInfo ≠ none)
    (hst1 : (if o.injectCss then env.addStyle1 else some ()) ≠ none)
    (hst2 : env.addStyle2 ≠ none)
    (hsc : env.screenshot = some ()) (hcl : env.closeBrowser = some ()) :
    (generate_image_playwright env o).success = true ∧
    ∃ s, (generate_image_playwright env o).shot = some s ∧ s.clip = none := by
  have hclip : clipOf env = none := by
    unfold clipOf
    rcases hbox with h | h <;> rw [h]
  have hfin : ∃ s : Shot,
      finishShot env o none = (true, [Ev.browserClose], some s) ∧ s.clip = none := by
    unfold finishShot
    rw [hsc, hcl]
    refine ⟨_, rfl, ?_⟩
    simp [hfp]
  have hbgall : ∀ bgr : Option BgInfo,
      ∃ s : Shot, afterBg env o bgr = (true, [Ev.browserClose], some s) ∧ s.clip = none := by
    intro bgr
    unfold afterBg
    cases hbs : bgStrOf bgr with
    | none => exact hfin
    | some str =>
      obtain ⟨v2, hv2⟩ := Option.ne_none_iff_exists'.mp hst2
      dsimp only
      by_cases hcond : ((extractBgUrl str).isSome && o.injectCss) = true
      · rw [if_pos hcond, hv2, hclip]
        exact hfin
      · rw [if_neg hcond, hclip]
        exact hfin
  obtain ⟨sel, hselv⟩ := Option.ne_none_iff_exists'.mp hsel
  obtain ⟨bgr, hbgv⟩ := Option.ne_none_iff_exists'.mp hbg
  obtain ⟨v1, hv1⟩ := Option.ne_none_iff_exists'.mp hst1
  have hag : ∃ s : Shot,
      afterGoto env o = (true, [Ev.browserClose], some s) ∧ s.clip = none := by
    unfold afterGoto
    rw [hselv, hbgv, hv1]
    exact hbgall bgr
  obtain ⟨s, hs, hsclip⟩ := hag
  have hcb : captureWithBody env o
      = (true, [Ev.browserLaunch, Ev.browserClose], some s) := by
    unfold captureWithBody
    rw [h3, h4, h5, h6, hs]
  refine ⟨?_, s, ?_, hsclip⟩ <;>
    · unfold generate_image_playwright
      rw [h1, h2, hcb]

/-- C4 witness: the amended statement at the concrete no-bounding-box
environment. -/
theorem capture_no_region_unclipped_witness :
    captureOptsPng.fullPage = false ∧
    (captureEnvBoxless.boundingBox = some none ∨ captureEnvBoxless.boundingBox = none) ∧
    selOf captureEnvBoxless captureOptsPng ≠ none ∧
    ((generate_image_playwright captureEnvBoxless captureOptsPng).success = true ∧
      ∃ s, (generate_image_playwright captureEnvBoxless captureOptsPng).shot = some s ∧
        s.clip = none) :=
  ⟨rfl, Or.inl rfl, by decide,
    capture_no_region_unclipped captureEnvBoxless captureOptsPng rfl (Or.inl rfl)
      rfl rfl rfl rfl rfl rfl (by decide) (by decide) (by decide) (by decide) rfl rfl⟩

theorem main_page_loop_skip (cfg : RunCfg) (env : RunEnv)
    (hskip : cfg.skipExisting = true) (hpo : cfg.printOnly = false) :
    ∀ (urls : List Str) (printed : Nat) (written calls : List Str),
    ∀ r ∈ (main_page_loop cfg env urls printed written calls).pages,
      r.existed = true → r.action = PageAction.skipped
  | [], printed, written, calls => by
    intro r hr
    simp [main_page_loop] at hr
  | u :: rest, printed, written, calls => by
    intro r hr hex
    by_cases hhead : (cfg.checkHead && !env.requestsAvailable) = true
    · simp [main_page_loop, hhead] at hr
    · have hstep1 : pageExists cfg env u printed written = true →
          loopStep cfg env u printed written calls = (PageAction.skipped, written, calls) := by
        intro hex2
        unfold loopStep
        rw [if_neg (by simp [hpo]), if_pos (by simp [hskip, hex2])]
      by_cases hlim : (limitTruthy cfg.limit
          && decide ((printed + 1 : Int) ≥ cfg.limit.getD 0)) = true
      · simp only [main_page_loop, hhead, Bool.false_eq_true, if_false, hlim, if_true,
          List.mem_singleton] at hr
        subst hr
        simp only at hex
        rw [hstep1 hex]
      · simp only [main_page_loop, hhead, Bool.false_eq_true, if_false, hlim, if_true,
          List.mem_cons] at hr
        rcases hr with hr | hr
        · subst hr
          simp only at hex
          rw [hstep1 hex]
        · exact main_page_loop_skip cfg env hskip hpo rest (printed + 1) _ _ r hr hex

/-- C8: with skip-existing enabled (and image generation on), every page whose
target image file already exists is handled without invoking the browser and
without writing its file — its action is `skipped`, browser calls come only
from non-skipped pages and written files only from captured pages — while the
page still advances the loop's counter and limit like any other page. -/
theorem skip_existing_short_circuit (cfg : RunCfg) (env : RunEnv) (urls : List Str)
    (hh : cfg.checkHead = false ∨ env.requestsAvailable = true)
    (hskip : cfg.skipExisting = true) (hpo : cfg.printOnly = false) :
    (∀ r ∈ (main_page_loop cfg env urls 0 [] []).pages,
      r.existed = true → r.action = PageAction.skipped) ∧
    (main_page_loop cfg env urls 0 [] []).calls
      = (((main_page_loop cfg env urls 0 [] []).pages.filter
          (fun r => r.action = PageAction.wroteImg ∨ r.action = PageAction.failedImg)).map
          (fun r => r.url)).reverse ∧
    (main_page_loop cfg env urls 0 [] []).written
      = (((main_page_loop cfg env urls 0 [] []).pages.filter
          (fun r => r.action = PageAction.wroteImg)).map (fun r => r.imgPath)).reverse ∧
    (main_page_loop cfg env urls 0 [] []).pages.map (fun r => r.url)
      = urls.take (pagesTaken cfg.limit 0 urls.length) := by
  obtain ⟨h1, h2, h3, h4⟩ := main_page_loop_shape cfg env urls 0 [] [] hh
  exact ⟨fun r hr hex => main_page_loop_skip cfg env hskip hpo urls 0 [] [] r hr hex,
    by simpa using h3, by simpa using h4, h1⟩

/-- C8 witness: a one-page run over a file system where the target file
already exists. -/
theorem skip_existing_short_circuit_witness :
    (runCfgW.checkHead = false ∨ runEnvW.requestsAvailable = true) ∧
    runCfgW.skipExisting = true ∧ runCfgW.printOnly = false ∧
    ((∀ r ∈ (main_page_loop runCfgW runEnvW [['u', '1']] 0 [] []).pages,
      r.existed = true → r.action = PageAction.skipped) ∧
    (main_page_loop runCfgW runEnvW [['u', '1']] 0 [] []).calls
      = (((main_page_loop runCfgW runEnvW [['u', '1']] 0 [] []).pages.filter
          (fun r => r.action = PageAction.wroteImg ∨ r.action = PageAction.failedImg)).map
          (fun r => r.url)).reverse ∧
    (main_page_loop runCfgW runEnvW [['u', '1']] 0 [] []).written
      = (((main_page_loop runCfgW runEnvW [['u', '1']] 0 [] []).pages.filter
          (fun r => r.action = PageAction.wroteImg)).map (fun r => r.imgPath)).reverse ∧
    (main_page_loop runCfgW runEnvW [['u', '1']] 0 [] []).pages.map (fun r => r.url)
      = [['u', '1']].take (pagesTaken runCfgW.limit 0 [['u', '1']].length)) :=
  ⟨Or.inl rfl, rfl, rfl,
    skip_existing_short_circuit runCfgW runEnvW [['u', '1']] (Or.inl rfl) rfl rfl⟩
